import Mathlib

/-!
Shallow embedding of the typing-defense game core (TypingGame component).

Words fall from the top of a play area; the player types a word and confirms
it with Enter to destroy it. The embedding models the React state container
as an explicit GameState value and each handler as a pure transition
function, with emitted toast notifications modelled as a list of GameEvent
values. Positions and speeds are modelled over the rationals (the source
uses floating point arithmetic restricted to dyadic values), layout
measurement as an Option parameter, and Math.random selections as an
explicit natural-number parameter used as an index.
-/

/-- Per-character lowercasing, the semantics of toLowerCase on the ASCII
word material of this game. -/
def lowerStr (s : String) : String := ⟨s.data.map Char.toLower⟩

/-- Removal of leading and trailing whitespace, the semantics of trim. -/
def trimStr (s : String) : String :=
  ⟨((s.data.dropWhile Char.isWhitespace).reverse.dropWhile Char.isWhitespace).reverse⟩

/-- Bool test that s starts with p, the semantics of startsWith. -/
def startsWithStr (s p : String) : Bool := p.data.isPrefixOf s.data

structure Word where
  id : String
  text : String
  x : ℚ
  y : ℚ
  speed : ℚ
  matched : String
deriving DecidableEq, Repr

structure GameState where
  isPlaying : Bool
  isGameOver : Bool
  score : Nat
  level : Nat
  lives : Nat
  words : List Word
  currentInput : String
deriving DecidableEq, Repr

/-- Notifications emitted by the game core (toast calls in the source). -/
inductive GameEvent where
  | wordArrived (text : String)
  | allLivesLost
  | levelUp (newLevel : Nat)
  | hitPoints (points : Nat)
  | miss
  | started
deriving DecidableEq, Repr

/-- Tiered word lists, transcribed verbatim from WORD_LISTS in the source. -/
def WORD_LISTS : List (List String) :=
  [ ["cat", "dog", "run", "jump", "fast", "slow", "big", "small", "hot", "cold", "red", "blue", "good", "bad", "new", "old", "yes", "no", "up", "down", "in", "out", "on", "off", "top", "end", "man", "boy", "girl", "car", "bus", "sun", "moon", "day", "year", "way", "may", "say", "play", "try", "why", "how", "now", "low", "show", "know", "grow", "flow", "blow", "snow"],
    ["house", "computer", "keyboard", "monitor", "window", "button", "screen", "music", "phone", "table", "chair", "water", "coffee", "orange", "purple", "yellow", "green", "black", "white", "brown", "happy", "angry", "tired", "hungry", "thirsty", "sleepy", "funny", "smart", "brave", "quick", "quiet", "loud", "bright", "dark", "clean", "dirty", "empty", "full", "open", "close", "start", "finish", "begin"],
    ["beautiful", "dangerous", "fantastic", "incredible", "mysterious", "wonderful", "important", "different", "possible", "terrible", "amazing", "excellent", "brilliant", "creative", "exciting", "fantastic", "generous", "hilarious", "innovative", "jealous", "knowledge", "language", "mountain", "necessary", "obvious", "peaceful", "question", "remember", "sandwich", "together", "umbrella", "vacation", "welcome", "yesterday", "zebra"],
    ["extraordinary", "incomprehensible", "responsibility", "characteristics", "simultaneously", "internationally", "representative", "administration", "communication", "entertainment", "investigation", "manufacturing", "understanding", "environmental", "revolutionary", "technological", "philosophical", "psychological", "archaeological", "astronomical", "mathematical", "geographical", "biographical", "alphabetical", "mechanical", "electrical", "chemical", "physical", "musical", "magical"] ]

/-- The initial useState value of the component. -/
def initialState : GameState :=
  { isPlaying := false, isGameOver := false, score := 0, level := 1, lives := 3,
    words := [], currentInput := "" }

/-- Tier selection: WORD_LISTS with index min (level - 1) (length - 1). -/
def tierWords (level : Nat) : List String :=
  WORD_LISTS.getD (min (level - 1) (WORD_LISTS.length - 1)) []

/-- Lowercased texts of the words currently on screen. -/
def liveTexts (currentWords : List Word) : List String :=
  currentWords.map (fun w => lowerStr w.text)

/-- Tier words that are neither on screen nor recently used. -/
def availableWords (recentlyUsed : List String) (level : Nat) (currentWords : List Word) :
    List String :=
  (tierWords level).filter (fun word =>
    !((liveTexts currentWords).contains (lowerStr word)) && !(recentlyUsed.contains (lowerStr word)))

/-- Tier words not on screen (fallback recomputation after clearing history). -/
def freshAvailableWords (level : Nat) (currentWords : List Word) : List String :=
  (tierWords level).filter (fun word => !((liveTexts currentWords).contains (lowerStr word)))

/-- Insertion-ordered set add (JS Set.add): no change when already present. -/
def setAdd (s : List String) (x : String) : List String :=
  if s.contains x then s else s ++ [x]

/-- Add to the recently-used memory, then evict the first (oldest) element of
the iteration order when the size exceeds 20, as the source does. -/
def updateRecent (recentlyUsed : List String) (w : String) : List String :=
  let r := setAdd recentlyUsed w
  if r.length > 20 then r.erase (r.headD "") else r

/-- Embedding of getRandomWord. The recently-used ref is passed and returned
explicitly; the Math.random draw is modelled by the index parameter r taken
modulo the candidate count. The fallback branch returns the word selected
from the fresh candidates together with the cleared memory; indexing an
empty candidate list yields none (undefined in the source). -/
def getRandomWord (recentlyUsed : List String) (level : Nat) (currentWords : List Word)
    (r : Nat) : Option String × List String :=
  let avail := availableWords recentlyUsed level currentWords
  if avail.isEmpty then
    let fresh := freshAvailableWords level currentWords
    (fresh[r % fresh.length]?, [])
  else
    match avail[r % avail.length]? with
    | none => (none, recentlyUsed)
    | some selectedWord => (some selectedWord, updateRecent recentlyUsed (lowerStr selectedWord))

/-- Embedding of spawnWord for one new word: id, text and x are produced by
random draws and the word bank in the source and are parameters here. -/
def spawnWord (id text : String) (x : ℚ) (s : GameState) : GameState :=
  { s with words := s.words ++
      [{ id := id, text := text, x := x, y := -50,
         speed := 1 + (s.level : ℚ) * (1 / 2), matched := "" }] }

/-- Per-tick position advance: each y grows by the speed of its word. -/
def advanceWords (ws : List Word) : List Word :=
  ws.map (fun w => { w with y := w.y + w.speed })

/-- Words at or past the base threshold after the advance. -/
def wordsAtBase (baseThreshold : ℚ) (ws : List Word) : List Word :=
  ws.filter (fun w => decide (baseThreshold ≤ w.y))

/-- Embedding of updateWords. The measured play-area height arrives as an
Option: none models an unmeasured ref, in which case the state is returned
unchanged. Nat subtraction models Math.max(0, lives - count). -/
def updateWords (gameHeight? : Option ℚ) (s : GameState) : GameState × List GameEvent :=
  match gameHeight? with
  | none => (s, [])
  | some gameHeight =>
    let baseThreshold := gameHeight - 100
    let updatedWords := advanceWords s.words
    let atBase := wordsAtBase baseThreshold updatedWords
    let newLives := s.lives - atBase.length
    let arrivalEvents := atBase.map (fun w => GameEvent.wordArrived w.text)
    if atBase.length > 0 ∧ newLives = 0 then
      ({ s with isPlaying := false, isGameOver := true, words := [], lives := 0 },
       arrivalEvents ++ [GameEvent.allLivesLost])
    else
      ({ s with words := updatedWords.filter (fun w => decide (w.y < baseThreshold)),
                lives := newLives },
       arrivalEvents)

/-- Embedding of handleInputChange: every word whose lowercased text starts
with the lowercased nonempty input gets the input recorded as its matched
prefix, every other word has it reset. -/
def handleInputChange (value : String) (s : GameState) : GameState :=
  { s with currentInput := value,
           words := s.words.map (fun word =>
             if startsWithStr (lowerStr word.text) (lowerStr value) && value.length > 0 then
               { word with matched := value }
             else
               { word with matched := "" }) }

/-- The first live word whose text equals the trimmed input, case folded. -/
def findTarget (s : GameState) : Option Word :=
  s.words.find? (fun w => lowerStr w.text == trimStr (lowerStr s.currentInput))

/-- Embedding of handleKeyPress restricted to its observable effect: the
Enter branch runs only when the trimmed input is nonempty; a hit removes the
target by id, adds points, rederives the level and clears the input; a miss
only clears the input and reports a failure event. -/
def handleKeyPress (key : String) (s : GameState) : GameState × List GameEvent :=
  if key = "Enter" ∧ trimStr s.currentInput ≠ "" then
    match findTarget s with
    | some targetWord =>
      let points := targetWord.text.length * 10 * s.level
      let newScore := s.score + points
      let newLevel := newScore / 1000 + 1
      ({ s with words := s.words.filter (fun w => w.id != targetWord.id),
                score := newScore, level := newLevel, currentInput := "" },
       (if newLevel > s.level then [GameEvent.levelUp newLevel] else [])
         ++ [GameEvent.hitPoints points])
    | none => ({ s with currentInput := "" }, [GameEvent.miss])
  else (s, [])

/-- The state installed by startGame. -/
def startGameState : GameState :=
  { isPlaying := true, isGameOver := false, score := 0, level := 1, lives := 3,
    words := [], currentInput := "" }

/-- Embedding of resetGame: stops play, clears words and input, keeps score,
level and lives. -/
def resetGame (s : GameState) : GameState :=
  { s with isPlaying := false, isGameOver := false, words := [], currentInput := "" }

/-- Session view pairing the component state with the refs that live beside
it: the recently-used word memory and the last spawn timestamp. -/
structure Session where
  state : GameState
  recentlyUsed : List String
  lastSpawn : Nat
deriving DecidableEq, Repr

/-- Embedding of startGame at the session level: the state is replaced
wholesale, the spawn timestamp ref is set to now, and the recently-used ref
is left untouched by the source. -/
def startGame (now : Nat) (sess : Session) : Session × List GameEvent :=
  ({ state := startGameState, recentlyUsed := sess.recentlyUsed, lastSpawn := now },
   [GameEvent.started])

/-- One animation-frame tick: scheduled only while isPlaying (the effect
cancels the frame otherwise), it may spawn one word and then runs
updateWords. The optional spawn data stands for the elapsed-time check and
the random draws of the source. -/
def tick (gameHeight? : Option ℚ) (sp : Option (String × String × ℚ)) (s : GameState) :
    GameState :=
  if s.isPlaying then
    (updateWords gameHeight?
      (match sp with
       | some (i, t, x) => spawnWord i t x s
       | none => s)).1
  else s

/-- One observable transition of the component state. -/
inductive Step : GameState → GameState → Prop
  | start (s : GameState) : Step s startGameState
  | reset (s : GameState) : Step s (resetGame s)
  | frame (gameHeight? : Option ℚ) (sp : Option (String × String × ℚ)) (s : GameState) :
      Step s (tick gameHeight? sp s)
  | inputChange (v : String) (s : GameState) : Step s (handleInputChange v s)
  | keyPress (k : String) (s : GameState) : Step s (handleKeyPress k s).1

/-- States reachable from the initial component state. -/
inductive Reachable : GameState → Prop
  | init : Reachable initialState
  | step {s t : GameState} : Reachable s → Step s t → Reachable t

/-! Concrete states used by witnesses and counterexamples. -/

/-- A live word cat, as in the scenario of the spec. -/
def catWord : Word := { id := "a", text := "cat", x := 0, y := 0, speed := 1, matched := "" }

/-- Playing state with the word cat live and the full input cat typed. -/
def hitState : GameState := { startGameState with words := [catWord], currentInput := "cat" }

/-- Playing state with the word cat live and the unmatched input xyz typed. -/
def missState : GameState := { startGameState with words := [catWord], currentInput := "xyz" }

/-- Playing state with the word cat live and a single blank as input. -/
def blankState : GameState := { startGameState with words := [catWord], currentInput := " " }

/-- C1: on a confirmed hit of the live word w, the awarded points are the
text length of w times 10 times the current level, the new score is the old
score plus those points, the new level is the floor of newScore / 1000 plus
one, and a level-up notification is emitted exactly when the new level
exceeds the old one. -/
theorem handleKeyPress_hit_scoring (s : GameState) (w : Word)
    (htrim : trimStr s.currentInput ≠ "") (hfind : findTarget s = some w) :
    (handleKeyPress "Enter" s).1.score = s.score + w.text.length * 10 * s.level ∧
    (handleKeyPress "Enter" s).1.level = (s.score + w.text.length * 10 * s.level) / 1000 + 1 ∧
    GameEvent.hitPoints (w.text.length * 10 * s.level) ∈ (handleKeyPress "Enter" s).2 ∧
    (GameEvent.levelUp ((s.score + w.text.length * 10 * s.level) / 1000 + 1)
        ∈ (handleKeyPress "Enter" s).2 ↔
      s.level < (s.score + w.text.length * 10 * s.level) / 1000 + 1) := by
  by_cases hlev : s.level < (s.score + w.text.length * 10 * s.level) / 1000 + 1 <;>
    simp [handleKeyPress, hfind, htrim, hlev]

/-- Witness: confirming cat at level 1 with score 0 awards 30 points. -/
theorem handleKeyPress_hit_scoring_witness :
    trimStr hitState.currentInput ≠ "" ∧ findTarget hitState = some catWord ∧
    ((handleKeyPress "Enter" hitState).1.score
        = hitState.score + catWord.text.length * 10 * hitState.level ∧
     (handleKeyPress "Enter" hitState).1.level
        = (hitState.score + catWord.text.length * 10 * hitState.level) / 1000 + 1 ∧
     GameEvent.hitPoints (catWord.text.length * 10 * hitState.level)
        ∈ (handleKeyPress "Enter" hitState).2 ∧
     (GameEvent.levelUp ((hitState.score + catWord.text.length * 10 * hitState.level) / 1000 + 1)
        ∈ (handleKeyPress "Enter" hitState).2 ↔
      hitState.level
        < (hitState.score + catWord.text.length * 10 * hitState.level) / 1000 + 1)) :=
  ⟨by decide, by decide,
   handleKeyPress_hit_scoring hitState catWord (by decide) (by decide)⟩

/-- C4: applyInput records the typed text as the matched prefix of exactly
the words whose lowercased text starts with the lowercased nonempty input,
resets the others, and stores the input; being a pointwise map, every live
word satisfying the condition is highlighted simultaneously. -/
theorem handleInputChange_matched (v : String) (s : GameState) (i : Nat) (w : Word)
    (hw : s.words[i]? = some w) :
    (handleInputChange v s).currentInput = v ∧
    (handleInputChange v s).words[i]? =
      some (if startsWithStr (lowerStr w.text) (lowerStr v) = true ∧ 0 < v.length
            then { w with matched := v } else { w with matched := "" }) := by
  refine ⟨rfl, ?_⟩
  simp only [handleInputChange, List.getElem?_map, hw, Option.map_some]
  by_cases h1 : startsWithStr (lowerStr w.text) (lowerStr v) = true <;>
    by_cases h2 : 0 < v.length <;> simp [h1, h2]

/-- Witness: with cat live, typing ca highlights cat with matched prefix ca. -/
theorem handleInputChange_matched_witness :
    hitState.words[0]? = some catWord ∧
    ((handleInputChange "ca" hitState).currentInput = "ca" ∧
     (handleInputChange "ca" hitState).words[0]? =
       some (if startsWithStr (lowerStr catWord.text) (lowerStr "ca") = true ∧ 0 < "ca".length
             then { catWord with matched := "ca" } else { catWord with matched := "" })) :=
  ⟨by decide, handleInputChange_matched "ca" hitState 0 catWord (by decide)⟩

/-- C5 (amended): for every confirmation whose input has nonempty trim, the
input resets to empty afterwards; if moreover no live word matches the
folded trimmed input, exactly one miss event, distinct from every success
event, is emitted and the cleared input is the only state change. -/
theorem handleKeyPress_confirm_resets (s : GameState)
    (htrim : trimStr s.currentInput ≠ "") :
    (handleKeyPress "Enter" s).1.currentInput = "" ∧
    (findTarget s = none →
      handleKeyPress "Enter" s = ({ s with currentInput := "" }, [GameEvent.miss]) ∧
      ∀ p, GameEvent.miss ≠ GameEvent.hitPoints p) := by
  constructor
  · rcases hf : findTarget s with _ | w <;> simp [handleKeyPress, htrim, hf]
  · intro hf
    simp [handleKeyPress, htrim, hf]

/-- Witness: confirming the unmatched input xyz clears the input and emits a
miss while changing nothing else. -/
theorem handleKeyPress_confirm_resets_witness :
    trimStr missState.currentInput ≠ "" ∧ findTarget missState = none ∧
    (handleKeyPress "Enter" missState).1.currentInput = "" ∧
    handleKeyPress "Enter" missState = ({ missState with currentInput := "" }, [GameEvent.miss]) :=
  ⟨by decide, by decide,
   (handleKeyPress_confirm_resets missState (by decide)).1,
   ((handleKeyPress_confirm_resets missState (by decide)).2 (by decide)).1⟩

/-- C5 counterexample: with cat live and a single blank as input, the
trimmed input matches no live word, yet pressing Enter emits no event at all
and leaves the input uncleared, because the handler ignores confirmations
whose trimmed input is empty. -/
theorem handleKeyPress_blank_skip :
    (∀ w ∈ blankState.words, lowerStr w.text ≠ trimStr (lowerStr blankState.currentInput)) ∧
    (handleKeyPress "Enter" blankState).1.currentInput = " " ∧
    (handleKeyPress "Enter" blankState).2 = [] := by
  decide

/-- A live word one step above the base line for a 500 high play area. -/
def demoWord : Word := { id := "d", text := "sun", x := 0, y := 450, speed := 1, matched := "" }

/-- Playing state on the last life with demoWord about to arrive. -/
def demoState : GameState := { startGameState with lives := 1, words := [demoWord] }

/-- After one advance, demoWord is the single word at the base. -/
lemma demo_atBase : wordsAtBase ((500:ℚ) - 100) (advanceWords [demoWord]) =
    [{ demoWord with y := demoWord.y + demoWord.speed }] := by
  simp [wordsAtBase, advanceWords, demoWord]
  norm_num

/-- C2: when the arrivals of a measured tick bring lives to zero, the very
same tick yields a GameOver state with exactly zero lives and an empty live
word set, and every subsequent tick leaves that state unchanged because
ticks are scheduled only while playing. -/
theorem updateWords_gameOver_terminal (gh : ℚ) (s : GameState)
    (h1 : 0 < (wordsAtBase (gh - 100) (advanceWords s.words)).length)
    (h2 : s.lives - (wordsAtBase (gh - 100) (advanceWords s.words)).length = 0) :
    (updateWords (some gh) s).1.isGameOver = true ∧
    (updateWords (some gh) s).1.isPlaying = false ∧
    (updateWords (some gh) s).1.lives = 0 ∧
    (updateWords (some gh) s).1.words = [] ∧
    ∀ gh' sp, tick gh' sp (updateWords (some gh) s).1 = (updateWords (some gh) s).1 := by
  simp only [updateWords]
  rw [if_pos ⟨h1, h2⟩]
  refine ⟨rfl, rfl, rfl, rfl, ?_⟩
  intro gh' sp
  simp [tick]

/-- Witness: on the last life, the word at the base ends the game and the
resulting state is a fixed point of the tick function. -/
theorem updateWords_gameOver_terminal_witness :
    0 < (wordsAtBase ((500:ℚ) - 100) (advanceWords demoState.words)).length ∧
    demoState.lives - (wordsAtBase ((500:ℚ) - 100) (advanceWords demoState.words)).length = 0 ∧
    ((updateWords (some 500) demoState).1.isGameOver = true ∧
     (updateWords (some 500) demoState).1.isPlaying = false ∧
     (updateWords (some 500) demoState).1.lives = 0 ∧
     (updateWords (some 500) demoState).1.words = [] ∧
     ∀ gh' sp, tick gh' sp (updateWords (some 500) demoState).1
        = (updateWords (some 500) demoState).1) :=
  ⟨by simp [demoState, startGameState, demo_atBase],
   by simp [demoState, startGameState, demo_atBase],
   updateWords_gameOver_terminal 500 demoState
     (by simp [demoState, startGameState, demo_atBase])
     (by simp [demoState, startGameState, demo_atBase])⟩

/-- C3: on a measured tick, lives drop by the number of words at or past the
base after the advance, clamped below at zero; every such arrived word is
absent from the surviving live words of the same tick; and every surviving
live word is one of the previous live words with its y grown by exactly its
speed. -/
theorem updateWords_motion_collision (gh : ℚ) (s : GameState) :
    ((updateWords (some gh) s).1.lives : ℤ)
        = max 0 ((s.lives : ℤ) - ((wordsAtBase (gh - 100) (advanceWords s.words)).length : ℤ)) ∧
    (∀ w ∈ wordsAtBase (gh - 100) (advanceWords s.words),
        w ∉ (updateWords (some gh) s).1.words) ∧
    (∀ w ∈ (updateWords (some gh) s).1.words,
        ∃ w0 ∈ s.words, w = { w0 with y := w0.y + w0.speed }) := by
  simp only [updateWords]
  split
  · rename_i h
    dsimp only
    refine ⟨?_, by simp, by simp⟩
    omega
  · rename_i h
    dsimp only
    refine ⟨by omega, ?_, ?_⟩
    · intro w hw hw2
      simp only [wordsAtBase, List.mem_filter, decide_eq_true_eq] at hw hw2
      exact absurd hw2.2 (not_lt.mpr hw.2)
    · intro w hw
      have hmem := List.mem_of_mem_filter hw
      simp only [advanceWords, List.mem_map] at hmem
      obtain ⟨w0, hw0, rfl⟩ := hmem
      exact ⟨w0, hw0, rfl⟩

/-- Adding to the insertion-ordered set grows its length by at most one. -/
lemma setAdd_length_le (ru : List String) (w : String) :
    (setAdd ru w).length ≤ ru.length + 1 := by
  unfold setAdd
  split
  · omega
  · simp

/-- The element just added belongs to the set. -/
lemma mem_setAdd (ru : List String) (w : String) : w ∈ setAdd ru w := by
  unfold setAdd
  split
  · rename_i h
    simpa using h
  · simp

/-- Eviction keeps the memory within the 20-entry bound. -/
lemma updateRecent_length_le (ru : List String) (w : String) (h : ru.length ≤ 20) :
    (updateRecent ru w).length ≤ 20 := by
  have hle := setAdd_length_le ru w
  simp only [updateRecent]
  split
  · rename_i hgt
    rcases hsa : setAdd ru w with _ | ⟨a, t⟩
    · rw [hsa] at hgt
      simp at hgt
    · rw [hsa] at hle
      simp only [List.headD_cons, List.erase_cons_head]
      simp at hle ⊢
      omega
  · rename_i hng
    omega

/-- When the insertion overflows the bound, exactly the head of the
insertion order, the oldest entry, is dropped. -/
lemma updateRecent_evicts_oldest (ru : List String) (w : String)
    (h : 20 < (setAdd ru w).length) : updateRecent ru w = (setAdd ru w).tail := by
  unfold updateRecent
  rw [if_pos h]
  rcases hsa : setAdd ru w with _ | ⟨a, t⟩
  · rw [hsa] at h
    simp at h
  · simp [List.headD, List.erase_cons_head]

/-- The word just recorded survives the possible eviction, provided the
memory respects its 20-entry invariant beforehand. -/
lemma mem_updateRecent (ru : List String) (w : String) (h : ru.length ≤ 20) :
    w ∈ updateRecent ru w := by
  by_cases hc : w ∈ ru
  · have hsa : setAdd ru w = ru := by simp [setAdd, hc]
    simp only [updateRecent, hsa]
    rw [if_neg (by omega)]
    exact hc
  · have hsa : setAdd ru w = ru ++ [w] := by simp [setAdd, hc]
    simp only [updateRecent, hsa]
    split
    · rename_i hgt
      rcases hru : ru with _ | ⟨a, t⟩
      · rw [hru] at hgt
        simp at hgt
      · simp only [List.cons_append, List.headD_cons, List.erase_cons_head]
        simp
    · simp

/-- Characterization of the non-fallback path: the returned word is one of
the filtered candidates and its lowercase form is recorded in the memory. -/
lemma getRandomWord_main (ru : List String) (level : Nat) (cw : List Word) (r : Nat)
    (w : String) (hmain : availableWords ru level cw ≠ [])
    (hw : (getRandomWord ru level cw r).1 = some w) :
    w ∈ availableWords ru level cw ∧
    (getRandomWord ru level cw r).2 = updateRecent ru (lowerStr w) := by
  have hne : (availableWords ru level cw).isEmpty = false := by
    simpa using hmain
  rcases hg : (availableWords ru level cw)[r % (availableWords ru level cw).length]?
      with _ | sel
  · have hnone : (getRandomWord ru level cw r).1 = none := by
      simp [getRandomWord, hne, hg]
    rw [hnone] at hw
    exact absurd hw (by simp)
  · have h1 : (getRandomWord ru level cw r).1 = some sel := by
      simp [getRandomWord, hne, hg]
    have h2 : (getRandomWord ru level cw r).2 = updateRecent ru (lowerStr sel) := by
      simp [getRandomWord, hne, hg]
    rw [h1] at hw
    obtain rfl : sel = w := by simpa using hw
    exact ⟨List.getElem?_mem hg, h2⟩

/-- C6: outside the exhaustion fallback, that is whenever the candidate list
filtered by live and recently-used words is nonempty, the returned word is
never one whose lowercase form is already among the lowercase texts of the
live words. -/
theorem getRandomWord_no_live_duplicate (ru : List String) (level : Nat)
    (cw : List Word) (r : Nat) (w : String)
    (hmain : availableWords ru level cw ≠ [])
    (hw : (getRandomWord ru level cw r).1 = some w) :
    ∀ lw ∈ cw, lowerStr lw.text ≠ lowerStr w := by
  intro lw hlw heq
  have hmem := (getRandomWord_main ru level cw r w hmain hw).1
  simp only [availableWords, List.mem_filter] at hmem
  obtain ⟨-, hb⟩ := hmem
  rw [Bool.and_eq_true] at hb
  have hnl : lowerStr w ∉ liveTexts cw := by
    simpa using hb.1
  exact hnl (by
    simp only [liveTexts, List.mem_map]
    exact ⟨lw, hlw, heq⟩)

/-- Witness: with cat live at level 1 the bank yields dog, which duplicates
no live word. -/
theorem getRandomWord_no_live_duplicate_witness :
    availableWords [] 1 [catWord] ≠ [] ∧
    (getRandomWord [] 1 [catWord] 0).1 = some "dog" ∧
    ∀ lw ∈ [catWord], lowerStr lw.text ≠ lowerStr "dog" :=
  ⟨by decide, by decide,
   getRandomWord_no_live_duplicate [] 1 [catWord] 0 "dog" (by decide) (by decide)⟩

/-- C7: starting from a memory within the 20-entry bound, the memory
returned by getRandomWord stays within the bound, and any insertion that
overflows the bound evicts exactly the oldest entry of the insertion
order. -/
theorem getRandomWord_recent_bound (ru : List String) (level : Nat) (cw : List Word)
    (r : Nat) (h : ru.length ≤ 20) :
    (getRandomWord ru level cw r).2.length ≤ 20 ∧
    ∀ w, 20 < (setAdd ru w).length → updateRecent ru w = (setAdd ru w).tail := by
  refine ⟨?_, fun w hw => updateRecent_evicts_oldest ru w hw⟩
  by_cases he : (availableWords ru level cw).isEmpty = true
  · simp [getRandomWord, he]
  · rcases hg : (availableWords ru level cw)[r % (availableWords ru level cw).length]?
        with _ | sel
    · simp [getRandomWord, he, hg, h]
    · have h2 : (getRandomWord ru level cw r).2 = updateRecent ru (lowerStr sel) := by
        simp [getRandomWord, he, hg]
      rw [h2]
      exact updateRecent_length_le ru _ h

/-- Witness: from the empty memory the bound and the eviction law hold. -/
theorem getRandomWord_recent_bound_witness :
    ([] : List String).length ≤ 20 ∧
    ((getRandomWord [] 1 [] 0).2.length ≤ 20 ∧
     ∀ w, 20 < (setAdd [] w).length → updateRecent [] w = (setAdd [] w).tail) :=
  ⟨by decide, getRandomWord_recent_bound [] 1 [] 0 (by decide)⟩

/-- C8 (amended): in the non-fallback path, and under the 20-entry memory
invariant, the lowercase form of the returned word is recorded in the
returned memory; the fallback path instead clears the memory and does not
record its selection. -/
theorem getRandomWord_inserts_nonfallback (ru : List String) (level : Nat)
    (cw : List Word) (r : Nat) (w : String) (hlen : ru.length ≤ 20)
    (hmain : availableWords ru level cw ≠ [])
    (hw : (getRandomWord ru level cw r).1 = some w) :
    lowerStr w ∈ (getRandomWord ru level cw r).2 := by
  obtain ⟨-, h2⟩ := getRandomWord_main ru level cw r w hmain hw
  rw [h2]
  exact mem_updateRecent ru (lowerStr w) hlen

/-- Witness: from the empty memory at level 1 the bank yields cat and
records it. -/
theorem getRandomWord_inserts_nonfallback_witness :
    ([] : List String).length ≤ 20 ∧ availableWords [] 1 [] ≠ [] ∧
    (getRandomWord [] 1 [] 0).1 = some "cat" ∧
    lowerStr "cat" ∈ (getRandomWord [] 1 [] 0).2 :=
  ⟨by decide, by decide, by decide,
   getRandomWord_inserts_nonfallback [] 1 [] 0 "cat" (by decide) (by decide) (by decide)⟩

/-- Live words covering the first ten tier 4 words. -/
def fallbackLive : List Word :=
  ((WORD_LISTS.getD 3 []).take 10).map
    (fun t => { id := "x", text := t, x := 0, y := 0, speed := 1, matched := "" })

/-- Recently-used memory holding the remaining twenty tier 4 words. -/
def fallbackRecent : List String := (WORD_LISTS.getD 3 []).drop 10

/-- C8 counterexample: with all tier 4 words either live or recently used,
the fallback path returns the word investigation yet the returned memory is
the cleared one, which does not contain it: the fallback selection is not
recorded. -/
theorem getRandomWord_fallback_no_insert :
    (getRandomWord fallbackRecent 4 fallbackLive 0).1 = some "investigation" ∧
    lowerStr "investigation" ∉ (getRandomWord fallbackRecent 4 fallbackLive 0).2 := by
  decide

/-- Idle session whose recently-used memory already holds cat. -/
def idleSession : Session := { state := initialState, recentlyUsed := ["cat"], lastSpawn := 0 }

/-- C9 (amended): startGame always yields the Playing phase with score 0,
level 1, lives 3, no live words, empty input and the spawn timestamp set to
now, but it leaves the recently-used word memory exactly as it was rather
than clearing it. -/
theorem startGame_spec (now : Nat) (sess : Session) :
    (startGame now sess).1.state.isPlaying = true ∧
    (startGame now sess).1.state.isGameOver = false ∧
    (startGame now sess).1.state.score = 0 ∧
    (startGame now sess).1.state.level = 1 ∧
    (startGame now sess).1.state.lives = 3 ∧
    (startGame now sess).1.state.words = [] ∧
    (startGame now sess).1.state.currentInput = "" ∧
    (startGame now sess).1.lastSpawn = now ∧
    (startGame now sess).1.recentlyUsed = sess.recentlyUsed :=
  ⟨rfl, rfl, rfl, rfl, rfl, rfl, rfl, rfl, rfl⟩

/-- C9 counterexample: starting a new session from a memory holding cat
leaves the memory holding cat, not the cleared memory the claim demands. -/
theorem startGame_keeps_recent :
    (startGame 5 idleSession).1.recentlyUsed = ["cat"] ∧
    (startGame 5 idleSession).1.recentlyUsed ≠ ([] : List String) := by
  decide

/-- updateWords either installs the game-over flag pattern or leaves both
phase flags unchanged. -/
lemma updateWords_flags (gh : Option ℚ) (s : GameState) :
    ((updateWords gh s).1.isPlaying = false ∧ (updateWords gh s).1.isGameOver = true) ∨
    ((updateWords gh s).1.isPlaying = s.isPlaying ∧
     (updateWords gh s).1.isGameOver = s.isGameOver) := by
  rcases gh with _ | h
  · right
    exact ⟨rfl, rfl⟩
  · simp only [updateWords]
    split
    · left
      exact ⟨rfl, rfl⟩
    · right
      exact ⟨rfl, rfl⟩

/-- Key handling never touches the phase flags. -/
lemma handleKeyPress_flags (k : String) (s : GameState) :
    (handleKeyPress k s).1.isPlaying = s.isPlaying ∧
    (handleKeyPress k s).1.isGameOver = s.isGameOver := by
  simp only [handleKeyPress]
  split
  · split <;> exact ⟨rfl, rfl⟩
  · exact ⟨rfl, rfl⟩

/-- A tick from a state that is not game over cannot make both flags true. -/
lemma tick_flags (gh : Option ℚ) (sp : Option (String × String × ℚ)) (s : GameState)
    (hgo : s.isGameOver = false) :
    ¬((tick gh sp s).isPlaying = true ∧ (tick gh sp s).isGameOver = true) := by
  unfold tick
  split
  · rcases sp with _ | ⟨i, t, x⟩
    · dsimp only
      rcases updateWords_flags gh s with ⟨h1, h2⟩ | ⟨h1, h2⟩ <;> simp [h1, h2, hgo]
    · dsimp only
      have hb1 : (spawnWord i t x s).isPlaying = s.isPlaying := rfl
      have hb2 : (spawnWord i t x s).isGameOver = false := hgo
      rcases updateWords_flags gh (spawnWord i t x s) with ⟨h1, h2⟩ | ⟨h1, h2⟩ <;>
        simp [h1, h2, hb1, hb2]
  · simp [hgo]

/-- One step of the component never makes both phase flags true. -/
lemma step_flags {a b : GameState} (hstep : Step a b)
    (ih : ¬(a.isPlaying = true ∧ a.isGameOver = true)) :
    ¬(b.isPlaying = true ∧ b.isGameOver = true) := by
  cases hstep with
  | start s => simp [startGameState]
  | reset s => simp [resetGame]
  | frame gh sp s =>
    rcases hgo : a.isGameOver
    · exact tick_flags gh sp a hgo
    · have hp : a.isPlaying = false := by
        rcases hp : a.isPlaying
        · rfl
        · exact absurd ⟨hp, hgo⟩ ih
      have hid : tick gh sp a = a := by simp [tick, hp]
      rw [hid]
      exact ih
  | inputChange v s => simpa [handleInputChange] using ih
  | keyPress k s =>
    obtain ⟨h1, h2⟩ := handleKeyPress_flags k a
    rw [h1, h2]
    exact ih

/-- C10: in every state reachable from the initial one through start, reset,
ticks and input events, isPlaying and isGameOver are never both true, so the
two Booleans faithfully encode the three mutually exclusive phases Idle,
Playing and GameOver. -/
theorem phases_exclusive (s : GameState) (h : Reachable s) :
    ¬(s.isPlaying = true ∧ s.isGameOver = true) := by
  induction h with
  | init => simp [initialState]
  | step hr hstep ih => exact step_flags hstep ih

/-- Witness: the state reached by pressing start is not both playing and
game over. -/
theorem phases_exclusive_witness :
    ¬(startGameState.isPlaying = true ∧ startGameState.isGameOver = true) :=
  phases_exclusive startGameState (Reachable.step Reachable.init (Step.start initialState))
